import Mathlib

/-!
Verification development for the smm2-hooks frame-synchronized
telemetry-and-control pipeline.  Shallow embedding of the per-tick
frame clock (src/frame.cpp), the scene/mode classifier driven by
player state transitions (src/state_logger.cpp), the status snapshot
publisher (src/status.cpp), the input-injection engine
(src/tas.cpp) and the ring-buffer logger (include/smm2/log.h).
Machine integers are modelled as Nat / Int with explicit reductions
modulo 2^width where the code can overflow; raw float fields are
carried as uninterpreted 32-bit patterns (Nat), since the code only
copies them.  External file I/O is modelled as always succeeding;
the logical content of each channel is carried explicitly.
-/

namespace Smm2

namespace status

/-- Player field offsets from src/include/smm2/player.h (namespace off). -/
def off_pos_x : Nat := 0x230
def off_pos_y : Nat := 0x234
def off_vel_y : Nat := 0x240
def off_vel_x : Nat := 0x274
def off_cur_state : Nat := 0x3F8
def off_state_frames : Nat := 0x3FC
def off_powerup_id : Nat := 0x4A8
def off_in_water : Nat := 0x4C0

/-- Literal offsets used directly in status.cpp update(). -/
def off_facing : Nat := 0x26C
def off_gravity : Nat := 0x27C
def off_buffered_action : Nat := 0x4BC

/-- is_death_state from src/src/status.cpp: states 9, 10, 113. -/
def is_death_state (state : Nat) : Bool :=
  state == 9 || state == 10 || state == 113

/-- is_goal_state from src/src/status.cpp: states 122, 124. -/
def is_goal_state (state : Nat) : Bool :=
  state == 122 || state == 124

/-- StatusBlock from src/include/smm2/status.h.  uint32/uint8 fields are
Nat; float fields carry the raw 32-bit pattern as Nat (the code only
copies them); real_game_phase is int32, carried as Int; gpm_inner is the
six-word research dump. -/
structure StatusBlock where
  frame : Nat
  game_phase : Nat
  player_state : Nat
  powerup_id : Nat
  pos_x : Nat
  pos_y : Nat
  vel_x : Nat
  vel_y : Nat
  state_frames : Nat
  in_water : Nat
  is_dead : Nat
  is_goal : Nat
  has_player : Nat
  facing : Nat
  gravity : Nat
  buffered_action : Nat
  input_poll_count : Nat
  real_game_phase : Int
  course_theme : Nat
  game_style : Nat
  scene_mode : Nat
  is_playing : Nat
  gpm_inner : List Nat
deriving DecidableEq, Repr

/-- Inputs that smm2::status::update reads from process-wide state and
from the external process's memory on one call: the frame argument, the
module-static s_mode and s_player, tas::input_poll_count(),
game_phase::read_phase(), the PlayerObject field reader (offset to raw
value; player::read), and the two guarded pointer chains (none models a
chain whose sanity guard fails). -/
structure UpdateEnv where
  frame : Nat
  s_mode : Nat
  s_player : Nat
  poll_count : Nat
  real_phase : Int
  playerRead : Nat → Nat
  themeChain : Option Nat
  gpmInner : Option (Nat → Nat)

/-- smm2::status::update from src/src/status.cpp lines 51-118: the block
is zeroed (memset), the unconditional fields are filled in, and the
player-derived fields are written only when s_player != 0 — there is no
staleness or phase check on that branch.  The file write at the end is
the publication of the returned block. -/
def update (e : UpdateEnv) : StatusBlock :=
  let ps := e.playerRead off_cur_state
  { frame := e.frame
    game_phase := e.s_mode
    input_poll_count := e.poll_count
    real_game_phase := e.real_phase
    player_state := if e.s_player ≠ 0 then ps else 0
    powerup_id := if e.s_player ≠ 0 then e.playerRead off_powerup_id else 0
    pos_x := if e.s_player ≠ 0 then e.playerRead off_pos_x else 0
    pos_y := if e.s_player ≠ 0 then e.playerRead off_pos_y else 0
    vel_x := if e.s_player ≠ 0 then e.playerRead off_vel_x else 0
    vel_y := if e.s_player ≠ 0 then e.playerRead off_vel_y else 0
    state_frames := if e.s_player ≠ 0 then e.playerRead off_state_frames else 0
    in_water := if e.s_player ≠ 0 then e.playerRead off_in_water else 0
    facing := if e.s_player ≠ 0 then e.playerRead off_facing else 0
    gravity := if e.s_player ≠ 0 then e.playerRead off_gravity else 0
    buffered_action := if e.s_player ≠ 0 then e.playerRead off_buffered_action else 0
    is_dead := if e.s_player ≠ 0 then (if is_death_state ps then 1 else 0) else 0
    is_goal := if e.s_player ≠ 0 then (if is_goal_state ps then 1 else 0) else 0
    has_player := if e.s_player ≠ 0 then 1 else 0
    course_theme := match e.themeChain with
      | some b => b
      | none => 0xFF
    game_style := match e.gpmInner with
      | some r => r 0x1C
      | none => 0
    scene_mode := match e.gpmInner with
      | some r => r 0x14
      | none => 0
    is_playing := match e.gpmInner with
      | some r => r 0x10
      | none => 0
    gpm_inner := match e.gpmInner with
      | some r => [r 0, r 4, r 8, r 0xC, r 0x10, r 0x14]
      | none => [0, 0, 0, 0, 0, 0] }

end status

namespace state_logger

/-- Mode-classification part of playerChangeState_hook from
src/src/state_logger.cpp lines 56-69, as a function of the current mode
and the observed (old_state, new_state) transition.  The hook runs the
four ifs in order, each calling status::set_mode, so a later assignment
overrides an earlier one.  Mode encoding from the code's comments:
0 = editor (Editing / initial), 1 = playing, 2 = goal sequence,
3 = death sequence. -/
def playerChangeState_mode (m old_state new_state : Nat) : Nat :=
  let m1 := if old_state = 16 then 1 else m
  let m2 := if new_state = 122 then 2 else m1
  let m3 := if new_state = 9 then 3 else m2
  if (old_state = 124 ∨ old_state = 10) ∧ new_state = 43 then 0 else m3

/-- Fold of the classifier over a sequence of (old_state, new_state)
transition events, starting from mode m. -/
def classifyRun (m : Nat) (events : List (Nat × Nat)) : Nat :=
  events.foldl (fun acc e => playerChangeState_mode acc e.1 e.2) m

end state_logger

namespace frame

/-- State of the frame clock of src/src/frame.cpp: the uint32 counter
s_frame and the (ghost) list of values the hook has passed to the
registered callback, oldest first. -/
structure FrameState where
  frame : Nat
  calls : List Nat
deriving DecidableEq, Repr

/-- Initial state: s_frame = 0, no callback invocations yet. -/
def frameInit : FrameState := { frame := 0, calls := [] }

/-- One intercepted simulation call (procFrame_ hook body, src/src/frame.cpp
lines 11-17): the callback is invoked with the current s_frame value and
only afterwards is s_frame incremented (uint32 arithmetic). -/
def procFrameStep (s : FrameState) : FrameState :=
  { frame := (s.frame + 1) % 2 ^ 32
    calls := s.calls ++ [s.frame] }

/-- State after n intercepted simulation calls starting from frameInit. -/
def procFrameN : Nat → FrameState
  | 0 => frameInit
  | n + 1 => procFrameStep (procFrameN n)

end frame

namespace tas

/-- MAX_KEYFRAMES from src/src/tas.cpp. -/
def MAX_KEYFRAMES : Nat := 2048

/-- Keyframe from src/src/tas.cpp: frame is uint32, buttons uint64,
stick axes int32. -/
structure Keyframe where
  frame : Nat
  buttons : Nat
  stick_lx : Int
  stick_ly : Int
deriving DecidableEq, Repr

/-- Boolean form of the while-loop guard script[idx].frame <= f. -/
def kfLe (f : Nat) (kf : Keyframe) : Bool :=
  decide (kf.frame ≤ f)

/-- Script-mode playback state of src/src/tas.cpp: the not-yet-consumed
suffix of the script stands for script_idx (rest = script.drop script_idx),
total is script_len, (curButtons, curLx, curLy) are cur_buttons / cur_lx /
cur_ly and active is script_active. -/
structure TasState where
  rest : List Keyframe
  total : Nat
  curButtons : Nat
  curLx : Int
  curLy : Int
  active : Bool
deriving DecidableEq, Repr

/-- While-loop of update_input (src/src/tas.cpp lines 127-132): advance
the cursor while the next keyframe's frame is at or before the current
frame, overwriting the current synthetic input with each consumed
keyframe in order. -/
def consumeKeyframes (f : Nat) : List Keyframe → Nat × Int × Int → List Keyframe × (Nat × Int × Int)
  | [], cur => ([], cur)
  | kf :: rest, cur =>
    if kf.frame ≤ f then consumeKeyframes f rest (kf.buttons, kf.stick_lx, kf.stick_ly)
    else (kf :: rest, cur)

/-- State set up by tas::init when load_script succeeds: cursor at 0,
synthetic input zero, script_active true exactly when the script is
nonempty (load_script returns script_len > 0). -/
def tasInit (script : List Keyframe) : TasState :=
  { rest := script
    total := script.length
    curButtons := 0
    curLx := 0
    curLy := 0
    active := decide (0 < script.length) }

/-- Script-mode part of update_input (src/src/tas.cpp lines 125-136) at
current frame f: when script_active and script_len > 0, consume due
keyframes; afterwards, if the cursor has exhausted the script and the
held buttons are zero, clear script_active. -/
def update_input (s : TasState) (f : Nat) : TasState :=
  if s.active ∧ 0 < s.total then
    let r := consumeKeyframes f s.rest (s.curButtons, s.curLx, s.curLy)
    { s with
      rest := r.1
      curButtons := r.2.1
      curLx := r.2.2.1
      curLy := r.2.2.2
      active := if r.1.isEmpty ∧ r.2.1 = 0 then false else s.active }
  else s

/-- Replaying the script tick-by-tick: state after update_input has run
at frames 0, 1, ..., t. -/
def tasRun (script : List Keyframe) : Nat → TasState
  | 0 => update_input (tasInit script) 0
  | t + 1 => update_input (tasRun script t) (t + 1)

/-- Nearest keyframe at or before tick t; when several qualify the last
one in script order wins.  Reference notion used by the sample-and-hold
claim. -/
def lastKeyframeLE (script : List Keyframe) (t : Nat) : Option Keyframe :=
  (script.filter (kfLe t)).getLast?

/-- Sample-and-hold evaluation of a keyframe list: the synthetic input
after consuming every keyframe of l in order, starting from cur. -/
def holdVal (cur : Nat × Int × Int) : List Keyframe → Nat × Int × Int
  | [] => cur
  | kf :: rest => holdVal (kf.buttons, kf.stick_lx, kf.stick_ly) rest

/-- Pad state written by the GetNpadStates hook; fields as in
nn::hid::full_key_state (src/include/nn/hid.h).  buttons is uint64,
axes int32. -/
structure full_key_state where
  sample : Int
  buttons : Nat
  sl_x : Int
  sl_y : Int
  sr_x : Int
  sr_y : Int
  attrs : Nat
deriving DecidableEq, Repr

/-- Per-entry merge of inject_buttons (src/src/tas.cpp lines 149-155):
buttons are OR-combined with the synthetic mask; each left-stick axis is
overwritten only when the synthetic value is nonzero. -/
def injectOne (curButtons : Nat) (curLx curLy : Int) (p : full_key_state) : full_key_state :=
  { p with
    buttons := p.buttons ||| curButtons
    sl_x := if curLx ≠ 0 then curLx else p.sl_x
    sl_y := if curLy ≠ 0 then curLy else p.sl_y }

/-- inject_buttons applied to the `written` entries the original call
produced, modelled as a list. -/
def inject_buttons (curButtons : Nat) (curLx curLy : Int) (out : List full_key_state) : List full_key_state :=
  out.map (injectOne curButtons curLx curLy)

end tas

namespace log

/-- BUFFER_SIZE from src/include/smm2/log.h. -/
def BUFFER_SIZE : Nat := 8192

/-- Logical state of one log::Logger stream after init: buffer holds the
buffered bytes (pos = buffer.length) and file the bytes already written
to the external channel (file_pos = file.length).  File writes are
modelled as succeeding. -/
structure Logger where
  buffer : List Nat
  file : List Nat
deriving DecidableEq, Repr

/-- State right after Logger::init: empty buffer, file truncated to
empty, offset 0. -/
def loggerInit : Logger := { buffer := [], file := [] }

/-- Logger::flush (src/include/smm2/log.h lines 68-80): a no-op on an
empty buffer, otherwise append the buffered bytes to the file at the
logical offset, advance the offset, and reset the buffer. -/
def flush (l : Logger) : Logger :=
  if l.buffer = [] then l
  else { buffer := [], file := l.file ++ l.buffer }

/-- Logger::write (src/include/smm2/log.h lines 34-57): flush first if
the buffer would overflow (pos + len >= BUFFER_SIZE); if the single
record itself is at least BUFFER_SIZE, bypass the buffer and write it
directly to the file at the logical offset; otherwise append it to the
buffer. -/
def write (l : Logger) (data : List Nat) : Logger :=
  let l1 := if BUFFER_SIZE ≤ l.buffer.length + data.length then flush l else l
  if BUFFER_SIZE ≤ data.length then { l1 with file := l1.file ++ data }
  else { l1 with buffer := l1.buffer ++ data }

/-- One operation on a logger stream. -/
inductive LogOp where
  | write (data : List Nat)
  | flush
deriving DecidableEq, Repr

/-- Apply a sequence of operations to a logger. -/
def logApply (l : Logger) : List LogOp → Logger
  | [] => l
  | LogOp.write d :: rest => logApply (write l d) rest
  | LogOp.flush :: rest => logApply (flush l) rest

/-- Concatenation of all bytes ever passed to write, in order. -/
def appendedBytes : List LogOp → List Nat
  | [] => []
  | LogOp.write d :: rest => d ++ appendedBytes rest
  | LogOp.flush :: rest => appendedBytes rest

end log

namespace tas

/-- C isspace characters in the default locale, as tested by strtoul /
strtol / strtoull while skipping leading whitespace. -/
def isSpaceC (c : Char) : Bool :=
  c == ' ' || c == '\t' || c == '\n' || c == '\r' || c == '\x0b' || c == '\x0c'

/-- Octal digit test used by the base-0 strtoull prefix rules. -/
def isOctDigitC (c : Char) : Bool :=
  c.isDigit && decide (c ≤ '7')

/-- Hexadecimal digit test used by the base-0 strtoull prefix rules. -/
def isHexDigitC (c : Char) : Bool :=
  c.isDigit || (decide ('a' ≤ c) && decide (c ≤ 'f')) || (decide ('A' ≤ c) && decide (c ≤ 'F'))

/-- Value of a decimal (or octal) digit character. -/
def decDigitVal (c : Char) : Nat := c.toNat - 48

/-- Value of a hexadecimal digit character. -/
def hexDigitVal (c : Char) : Nat :=
  if c.isDigit then c.toNat - 48
  else if decide ('a' ≤ c) && decide (c ≤ 'f') then c.toNat - 87
  else c.toNat - 55

/-- Magnitude of a digit run in the given base. -/
def digitsVal (base : Nat) (v : Char → Nat) (ds : List Char) : Nat :=
  ds.foldl (fun a c => a * base + v c) 0

/-- Optional sign accepted after the whitespace skip; returns whether a
minus was seen and the remaining characters. -/
def parseSign : List Char → Bool × List Char
  | '-' :: r => (true, r)
  | '+' :: r => (false, r)
  | l => (false, l)

/-- ULONG_MAX on the 64-bit target. -/
def ULONG_MAX : Nat := 2 ^ 64 - 1

/-- strtoul(line, &line, 10) as used for the frame column: skip
whitespace and an optional sign, convert the longest decimal digit run
(clamping to ULONG_MAX on overflow, negating modulo 2^64 after a
minus); with no digits there is no conversion and the end pointer is
the original pointer. -/
def strtoul10 (l : List Char) : Nat × List Char :=
  let l1 := l.dropWhile isSpaceC
  let s := parseSign l1
  let ds := s.2.takeWhile Char.isDigit
  if ds.isEmpty then (0, l)
  else
    let m := min (digitsVal 10 decDigitVal ds) ULONG_MAX
    ((if s.1 then (2 ^ 64 - m) % 2 ^ 64 else m), s.2.dropWhile Char.isDigit)

/-- strtol(line, &line, 10) as used for the stick columns: as strtoul10
but signed, clamping to the long range on overflow. -/
def strtol10 (l : List Char) : Int × List Char :=
  let l1 := l.dropWhile isSpaceC
  let s := parseSign l1
  let ds := s.2.takeWhile Char.isDigit
  if ds.isEmpty then (0, l)
  else
    let m : Int := Int.ofNat (digitsVal 10 decDigitVal ds)
    let v : Int := if s.1 then max (-m) (-(2 ^ 63)) else min m (2 ^ 63 - 1)
    (v, s.2.dropWhile Char.isDigit)

/-- strtoull(line, &line, 0) as used for the buttons column: after the
whitespace and sign handling the base is chosen by prefix — 0x/0X with a
hex digit selects base 16, a leading 0 selects base 8, anything else
base 10; a bare 0x prefix converts just the 0 and leaves the end pointer
on the x. -/
def strtoull0 (l : List Char) : Nat × List Char :=
  let l1 := l.dropWhile isSpaceC
  let s := parseSign l1
  let r :=
    match s.2 with
    | '0' :: c :: rest =>
      if c = 'x' ∨ c = 'X' then
        let ds := rest.takeWhile isHexDigitC
        if ds.isEmpty then some (0, c :: rest)
        else some (digitsVal 16 hexDigitVal ds, rest.dropWhile isHexDigitC)
      else
        let oc := ('0' :: c :: rest).takeWhile isOctDigitC
        some (digitsVal 8 decDigitVal oc, ('0' :: c :: rest).dropWhile isOctDigitC)
    | ['0'] => some (0, [])
    | other =>
      let ds := other.takeWhile Char.isDigit
      if ds.isEmpty then none
      else some (digitsVal 10 decDigitVal ds, other.dropWhile Char.isDigit)
  match r with
  | none => (0, l)
  | some (m, rest) =>
    ((if s.1 then (2 ^ 64 - min m ULONG_MAX) % 2 ^ 64 else min m ULONG_MAX), rest)

/-- Cast of a long value to int32_t (two's-complement wrap). -/
def toInt32 (n : Int) : Int :=
  let m := n % (2 ^ 32 : Int)
  if m ≥ 2 ^ 31 then m - 2 ^ 32 else m

/-- Consume the separating comma, when present (the `if (*line == ',')
line++;` steps of load_script). -/
def skipComma (l : List Char) : List Char :=
  match l with
  | ',' :: r => r
  | _ => l

/-- One iteration of the row loop of load_script (src/src/tas.cpp lines
62-74): parse the four columns (frame via strtoul base 10 cast to
uint32, buttons via strtoull base 0, sticks via strtol base 10 cast to
int32), then skip to just past the end of the line.  Every iteration
appends a keyframe; nothing validates the row. -/
def parseRow (l : List Char) : Keyframe × List Char :=
  let f := strtoul10 l
  let l2 := skipComma f.2
  let b := strtoull0 l2
  let l3 := skipComma b.2
  let x := strtol10 l3
  let l4 := skipComma x.2
  let y := strtol10 l4
  let l5 := y.2.dropWhile (fun c => c ≠ '\n')
  let l6 := match l5 with
    | '\n' :: r => r
    | _ => l5
  ({ frame := f.1 % 2 ^ 32
     buttons := b.1
     stick_lx := toInt32 x.1
     stick_ly := toInt32 y.1 }, l6)

/-- Row loop of load_script: while characters remain and fewer than
MAX_KEYFRAMES rows are stored, parse a row.  The fuel argument bounds
the recursion; every iteration of the C loop consumes at least one
character, so fuel = length + 1 never cuts a real iteration short. -/
def parseRows : Nat → List Char → Nat → List Keyframe
  | 0, _, _ => []
  | fuel + 1, l, n =>
    if l.isEmpty ∨ ¬ n < MAX_KEYFRAMES then []
    else
      let r := parseRow l
      r.1 :: parseRows fuel r.2 (n + 1)

/-- Header skip of load_script: strchr for the first newline; when one
exists parsing starts just past it, otherwise at the start of the
buffer. -/
def skipHeader (l : List Char) : List Char :=
  if l.contains '\n' then (l.dropWhile (fun c => c ≠ '\n')).tail else l

/-- load_script (src/src/tas.cpp lines 44-77) as a function of the file
content: at most the first 65535 bytes are read into the buffer, which
is then NUL-terminated and parsed as a C string (an embedded NUL stops
parsing), the header line is skipped and rows are parsed up to
MAX_KEYFRAMES. -/
def load_script (content : List Char) : List Keyframe :=
  let eff := (content.take 65535).takeWhile (fun c => c ≠ '\x00')
  let body := skipHeader eff
  parseRows (body.length + 1) body 0

end tas

end Smm2

open Smm2

/-- Zero values for every entity-derived field of a snapshot, the
property claimed for an invalid (has_player = 0) record. -/
def entityFieldsZero (b : status.StatusBlock) : Prop :=
  b.player_state = 0 ∧ b.powerup_id = 0 ∧ b.pos_x = 0 ∧ b.pos_y = 0 ∧
  b.vel_x = 0 ∧ b.vel_y = 0 ∧ b.state_frames = 0 ∧ b.in_water = 0 ∧
  b.facing = 0 ∧ b.gravity = 0 ∧ b.buffered_action = 0 ∧
  b.is_dead = 0 ∧ b.is_goal = 0

/-- Update environment of a run in which the player reference was
captured once (s_player = 0x4242), the player has since been destroyed
(its memory still reads state 113 = death), no confirmation has arrived
for arbitrarily many ticks, and the coarse phase reads ph (any value,
including ones outside the subject-exists set {3, 4}). -/
def c1Env (f : Nat) (ph : Int) : status.UpdateEnv :=
  { frame := f
    s_mode := 3
    s_player := 0x4242
    poll_count := 0
    real_phase := ph
    playerRead := fun o => if o = status.off_cur_state then 113 else 0
    themeChain := none
    gpmInner := none }

/-- Update environment with no tracked player (s_player = 0) but a
player-memory reader that would return a nonzero value at every offset,
so any leak of a player read into the snapshot would be visible. -/
def c2Env : status.UpdateEnv :=
  { frame := 7
    s_mode := 1
    s_player := 0
    poll_count := 3
    real_phase := 6
    playerRead := fun _ => 0xDEAD
    themeChain := some 2
    gpmInner := none }

/-- Snapshot environment for tick 950 of the end-to-end scenario: the
classifier mode after the three transitions feeds s_mode. -/
def c3SnapshotEnv : status.UpdateEnv :=
  { frame := 950
    s_mode := state_logger.classifyRun 0 [(16, 1), (1, 122), (124, 43)]
    s_player := 0
    poll_count := 0
    real_phase := 3
    playerRead := fun _ => 0
    themeChain := none
    gpmInner := none }

/-- The example script of the sample-and-hold claim. -/
def c6Script : List tas.Keyframe :=
  [{ frame := 0, buttons := 0, stick_lx := 0, stick_ly := 0 },
   { frame := 100, buttons := 0x4000, stick_lx := 0, stick_ly := 0 },
   { frame := 120, buttons := 0x4001, stick_lx := 0, stick_ly := 0 }]

/-- Real host input with buttons 0x01 and sticks at rest. -/
def padReal1 : tas.full_key_state :=
  { sample := 0, buttons := 0x01, sl_x := 0, sl_y := 0, sr_x := 0, sr_y := 0, attrs := 0 }

/-- Real host input with left stick x at 500. -/
def padReal2 : tas.full_key_state :=
  { sample := 0, buttons := 0, sl_x := 500, sl_y := 0, sr_x := 0, sr_y := 0, attrs := 0 }

/-- Script file whose third line fails to parse. -/
def c9File : List Char :=
  ("frame,buttons,lx,ly\n0,1,2,3\nxyz\n5,6,7,8\n").toList

/-- The same script file with the malformed line deleted. -/
def c9FileRowDeleted : List Char :=
  ("frame,buttons,lx,ly\n0,1,2,3\n5,6,7,8\n").toList

/-- Characters on which every column conversion of a script row fails:
not a digit, not C whitespace (so in particular not a newline), not a
sign, not the comma separator and not NUL.  A row made of such
characters (like "xyz") is malformed: strtoul, strtoull and strtol all
perform no conversion on it and the comma skips do not fire. -/
def junkRowChar (c : Char) : Bool :=
  !(c.isDigit || tas.isSpaceC c || c == '+' || c == '-' || c == ',' || c == '\x00')

/-- C1: the claim says current() reports valid iff the reference was
confirmed within STALE_WINDOW ticks and the coarse phase indicates the
subject exists.  The code has neither check: update() publishes
has_player = 1 whenever the stored pointer is nonzero, at every frame
and under every phase value, and keeps serving the destroyed player's
memory (state 113).  The repository's own status-system notes list this
as Bug 1 (stale player pointer, critical), so the code contradicts its
own documentation. -/
theorem c1_has_player_ignores_staleness_and_phase :
    (∀ f : Nat, ∀ ph : Int, (status.update (c1Env f ph)).has_player = 1) ∧
    (status.update (c1Env 1000 6)).player_state = 113 ∧
    (status.update (c1Env 1000 6)).is_dead = 1 :=
  ⟨fun _ _ => rfl, rfl, rfl⟩

/-- C2: a snapshot with has_player = 0 has every entity-derived field
equal to its zero value; no value from a previous player read leaks
into the record. -/
theorem c2_entity_fields_zero_when_invalid (e : status.UpdateEnv)
    (h : (status.update e).has_player = 0) :
    entityFieldsZero (status.update e) := by
  have hp : e.s_player = 0 := by
    by_contra hne
    simp [status.update, hne] at h
  simp [entityFieldsZero, status.update, hp]

/-- C2 witness: the concrete environment c2Env has has_player = 0 and,
by the theorem, all entity-derived fields zero even though its player
reader would return 0xDEAD everywhere. -/
theorem c2_entity_fields_zero_when_invalid_witness :
    (status.update c2Env).has_player = 0 ∧ entityFieldsZero (status.update c2Env) :=
  ⟨rfl, c2_entity_fields_zero_when_invalid c2Env rfl⟩

/-- C3: the classifier follows the canonical edge table — a transition
out of the reset/reload state 16 yields Playing (1) whenever the new
state is not one of the higher-precedence goal/death states (per the
tie-break rule of the same table, see C4); a transition into the
canonical goal state 122 yields GoalSequence (2); a transition into the
canonical death state 9 yields DeathSequence (3); a transition from the
goal-terminal state 124 or the death-terminal state 10 into the idle
state 43 yields Editing (0).  The concrete scenario (16→1), (1→122),
(124→43) from a fresh classifier passes through modes 1, 2, 0 and the
snapshot built at tick 950 carries mode Editing. -/
theorem c3_classifier_edge_table :
    (∀ m new_state : Nat, new_state ≠ 122 → new_state ≠ 9 →
      state_logger.playerChangeState_mode m 16 new_state = 1) ∧
    (∀ m old_state : Nat, state_logger.playerChangeState_mode m old_state 122 = 2) ∧
    (∀ m old_state : Nat, state_logger.playerChangeState_mode m old_state 9 = 3) ∧
    (∀ m old_state : Nat, old_state = 124 ∨ old_state = 10 →
      state_logger.playerChangeState_mode m old_state 43 = 0) ∧
    state_logger.classifyRun 0 [(16, 1)] = 1 ∧
    state_logger.classifyRun 0 [(16, 1), (1, 122)] = 2 ∧
    state_logger.classifyRun 0 [(16, 1), (1, 122), (124, 43)] = 0 ∧
    (status.update c3SnapshotEnv).game_phase = 0 := by
  refine ⟨?_, ?_, ?_, ?_, by decide, by decide, by decide, by decide⟩
  · intro m new_state h122 h9
    simp [state_logger.playerChangeState_mode, h122, h9]
  · intro m old_state
    simp [state_logger.playerChangeState_mode]
  · intro m old_state
    simp [state_logger.playerChangeState_mode]
  · intro m old_state h
    rcases h with h | h <;> subst h <;> simp [state_logger.playerChangeState_mode]

/-- C3 witness: the edge-table rules applied at concrete inputs — the
reset edge (16→43) classifies as Playing and the goal-terminal edge
(124→43) as Editing, from arbitrary prior modes. -/
theorem c3_classifier_edge_table_witness :
    ((43 : Nat) ≠ 122 ∧ (43 : Nat) ≠ 9 ∧
      state_logger.playerChangeState_mode 5 16 43 = 1) ∧
    (((124 : Nat) = 124 ∨ (124 : Nat) = 10) ∧
      state_logger.playerChangeState_mode 7 124 43 = 0) :=
  ⟨⟨by decide, by decide, c3_classifier_edge_table.1 5 43 (by decide) (by decide)⟩,
   ⟨Or.inl rfl, c3_classifier_edge_table.2.2.2.1 7 124 (Or.inl rfl)⟩⟩

/-- C4: on a transition where the generic reset rule (old = 16) and a
goal/death rule (new = 122 or new = 9) both fire, the goal/death rule
wins: the resulting mode is GoalSequence (2) resp. DeathSequence (3),
never Playing (1), because the set_mode calls for goal/death run after
the reset one. -/
theorem c4_goal_death_precedence_over_reset :
    ∀ m : Nat,
      state_logger.playerChangeState_mode m 16 122 = 2 ∧
      state_logger.playerChangeState_mode m 16 122 ≠ 1 ∧
      state_logger.playerChangeState_mode m 16 9 = 3 ∧
      state_logger.playerChangeState_mode m 16 9 ≠ 1 :=
  fun _ => ⟨rfl, by simp [state_logger.playerChangeState_mode],
    rfl, by simp [state_logger.playerChangeState_mode]⟩

/-- C5 counterexample: the claim says the tick counter is incremented
first and the callback then receives the post-increment value, so the
first intercepted call would pass 1.  In the code the callback runs
before the increment: the first intercepted call passes 0. -/
theorem c5_post_increment_value_counterexample :
    (frame.procFrameN 1).calls = [0] ∧ (frame.procFrameN 1).calls ≠ [1] := by
  decide

/-- C5 amended: on every intercepted simulation call the frame clock
invokes the single registered callback with the current pre-increment
tick value and only then increments the counter exactly once (uint32
arithmetic); the callback therefore receives 0 on the first call and
the value grows by exactly 1 (mod 2^32) per call. -/
theorem c5_callback_gets_pre_increment_tick :
    ∀ n : Nat,
      (frame.procFrameN n).calls = (List.range n).map (fun i => i % 2 ^ 32) ∧
      (frame.procFrameN n).frame = n % 2 ^ 32 := by
  intro n
  induction n with
  | zero => simp [frame.procFrameN, frame.frameInit]
  | succ k ih =>
    refine ⟨?_, ?_⟩
    · simp [frame.procFrameN, frame.procFrameStep, List.range_succ, ih.1, ih.2]
    · have h := ih.2
      simp only [frame.procFrameN, frame.procFrameStep, h]
      omega

/-- C7: the merged buttons of every written pad entry equal the bitwise
OR of the real and synthetic masks; each left-stick axis equals the
synthetic value exactly when it is nonzero and the real value
otherwise; all other fields pass through.  Concretely, real buttons
0x01 with synthetic 0x4000 merge to 0x4001, and synthetic axis 0 leaves
real axis 500 untouched. -/
theorem c7_merge_or_buttons_axis_override :
    (∀ (cb : Nat) (clx cly : Int) (p : tas.full_key_state),
      (tas.injectOne cb clx cly p).buttons = p.buttons ||| cb ∧
      (tas.injectOne cb clx cly p).sl_x = (if clx ≠ 0 then clx else p.sl_x) ∧
      (tas.injectOne cb clx cly p).sl_y = (if cly ≠ 0 then cly else p.sl_y) ∧
      (tas.injectOne cb clx cly p).sample = p.sample ∧
      (tas.injectOne cb clx cly p).sr_x = p.sr_x ∧
      (tas.injectOne cb clx cly p).sr_y = p.sr_y ∧
      (tas.injectOne cb clx cly p).attrs = p.attrs) ∧
    (∀ (cb : Nat) (clx cly : Int) (out : List tas.full_key_state),
      tas.inject_buttons cb clx cly out = out.map (tas.injectOne cb clx cly)) ∧
    (tas.inject_buttons 0x4000 0 0 [padReal1, padReal2]).map tas.full_key_state.buttons
      = [0x4001, 0x4000] ∧
    (tas.inject_buttons 0x4000 0 0 [padReal1, padReal2]).map tas.full_key_state.sl_x
      = [0, 500] :=
  ⟨fun _ _ _ _ => ⟨rfl, rfl, rfl, rfl, rfl, rfl, rfl⟩,
   fun _ _ _ _ => rfl, by decide, by decide⟩

/-- Flush leaves the total stream content (file then buffer) unchanged. -/
theorem flush_conserve (l : log.Logger) :
    (log.flush l).file ++ (log.flush l).buffer = l.file ++ l.buffer := by
  unfold log.flush
  by_cases h : l.buffer = [] <;> simp [h]

/-- Flush always leaves an empty buffer. -/
theorem flush_buffer (l : log.Logger) : (log.flush l).buffer = [] := by
  unfold log.flush
  by_cases h : l.buffer = [] <;> simp [h]

/-- Flush moves exactly the buffered bytes to the end of the file. -/
theorem flush_file (l : log.Logger) :
    (log.flush l).file = l.file ++ l.buffer := by
  unfold log.flush
  by_cases h : l.buffer = [] <;> simp [h]

/-- One write appends exactly its bytes to the total stream content, in
order, on every path (buffered, flush-then-buffer, direct bypass). -/
theorem write_conserve (l : log.Logger) (d : List Nat) :
    (log.write l d).file ++ (log.write l d).buffer = l.file ++ l.buffer ++ d := by
  unfold log.write
  by_cases hbig : log.BUFFER_SIZE ≤ d.length
  · have hcond : log.BUFFER_SIZE ≤ l.buffer.length + d.length :=
      le_trans hbig (Nat.le_add_left _ _)
    simp [hbig, hcond, flush_file, flush_buffer, List.append_assoc]
  · by_cases hcond : log.BUFFER_SIZE ≤ l.buffer.length + d.length
    · simp [hbig, hcond, flush_file, flush_buffer, List.append_assoc]
    · simp [hbig, hcond, List.append_assoc]

/-- Applying any operation sequence appends exactly the written bytes to
the total stream content. -/
theorem logApply_conserve :
    ∀ (ops : List log.LogOp) (l : log.Logger),
      (log.logApply l ops).file ++ (log.logApply l ops).buffer =
        l.file ++ l.buffer ++ log.appendedBytes ops := by
  intro ops
  induction ops with
  | nil => intro l; simp [log.logApply, log.appendedBytes]
  | cons op rest ih =>
    intro l
    cases op with
    | write d =>
      simp only [log.logApply, log.appendedBytes, ih (log.write l d), write_conserve,
        List.append_assoc]
    | flush =>
      simp only [log.logApply, log.appendedBytes, ih (log.flush l), flush_file, flush_buffer,
        List.append_assoc, List.append_nil]

/-- C8: across every sequence of append and flush operations on a fresh
stream — including appends of single records at least as large as the
buffer, which take the direct-write bypass — the file content followed
by the buffered bytes equals the concatenation of all bytes ever
appended: no byte is written twice, skipped, or reordered, so the
logical offset (file length) plus the buffered byte count always equals
the total bytes appended. -/
theorem c8_ring_logger_conservation :
    ∀ ops : List log.LogOp,
      (log.logApply log.loggerInit ops).file ++ (log.logApply log.loggerInit ops).buffer =
        log.appendedBytes ops := by
  intro ops
  simpa [log.loggerInit] using logApply_conserve ops log.loggerInit

/-- Bound on the number of rows the parsing loop can store, from the
script_len < MAX_KEYFRAMES loop guard. -/
theorem parseRows_length_le :
    ∀ (fuel : Nat) (l : List Char) (n : Nat),
      (tas.parseRows fuel l n).length ≤ tas.MAX_KEYFRAMES - n := by
  intro fuel
  induction fuel with
  | zero => intro l n; simp [tas.parseRows]
  | succ k ih =>
    intro l n
    unfold tas.parseRows
    split
    · simp
    · next h =>
      have hn : n < tas.MAX_KEYFRAMES := by
        rcases not_or.mp h with ⟨-, h2⟩
        exact not_not.mp h2
      have h2 := ih (tas.parseRow l).2 (n + 1)
      simp only [List.length_cons]
      omega

/-- C10: the script loader reads at most the first 65535 bytes of the
file (content beyond that cannot change the result) and stores at most
MAX_KEYFRAMES = 2048 keyframes, so every parse has length at most
2048. -/
theorem c10_script_limits :
    ∀ content : List Char,
      (tas.load_script content).length ≤ 2048 ∧
      tas.load_script content = tas.load_script (content.take 65535) := by
  intro content
  constructor
  · have h := parseRows_length_le
      ((tas.skipHeader ((content.take 65535).takeWhile (fun c => c ≠ '\x00'))).length + 1)
      (tas.skipHeader ((content.take 65535).takeWhile (fun c => c ≠ '\x00'))) 0
    simpa [tas.load_script, tas.MAX_KEYFRAMES] using h
  · have hbody : ((content.take 65535).take 65535) = content.take 65535 := by
      simp [List.take_take]
    simp only [tas.load_script, hbody]

/-- C9 counterexample: the claim says a file with a malformed row parses
to exactly the parse of the same file with that row deleted.  For the
concrete file whose third line is the unparseable "xyz" the two parses
differ: the loader does not skip the row. -/
theorem c9_malformed_row_not_skipped_counterexample :
    tas.load_script c9File ≠ tas.load_script c9FileRowDeleted := by
  decide

/-- Dropping with a weaker predicate after a stronger one equals
dropping with the weaker predicate directly. -/
theorem dropWhile_dropWhile_of_imp {α : Type} {p q : α → Bool}
    (h : ∀ a, p a = true → q a = true) :
    ∀ l : List α, (l.dropWhile p).dropWhile q = l.dropWhile q := by
  intro l
  induction l with
  | nil => rfl
  | cons a l ih =>
    by_cases hp : p a = true
    · rw [List.dropWhile_cons_of_pos hp, ih, List.dropWhile_cons_of_pos (h a hp)]
    · rw [List.dropWhile_cons_of_neg hp]

/-- Taking with a weaker predicate splits at the stronger predicate's
boundary. -/
theorem takeWhile_split_of_imp {α : Type} {p q : α → Bool}
    (h : ∀ a, p a = true → q a = true) :
    ∀ l : List α, l.takeWhile q = l.takeWhile p ++ (l.dropWhile p).takeWhile q := by
  intro l
  induction l with
  | nil => rfl
  | cons a l ih =>
    by_cases hp : p a = true
    · rw [List.takeWhile_cons_of_pos hp, List.dropWhile_cons_of_pos hp,
        List.takeWhile_cons_of_pos (h a hp), List.cons_append, ih]
    · rw [List.takeWhile_cons_of_neg hp, List.dropWhile_cons_of_neg hp, List.nil_append]

/-- Sample-and-hold evaluation distributes over append. -/
theorem holdVal_append (a b : List tas.Keyframe) :
    ∀ cur, tas.holdVal cur (a ++ b) = tas.holdVal (tas.holdVal cur a) b := by
  induction a with
  | nil => intro cur; rfl
  | cons kf a ih =>
    intro cur
    simp only [List.cons_append, tas.holdVal]
    exact ih _

/-- Sample-and-hold evaluation of a keyframe list returns the last
keyframe's values when there is one. -/
theorem holdVal_of_getLast (l : List tas.Keyframe) :
    ∀ (cur : Nat × Int × Int) (kf : tas.Keyframe), l.getLast? = some kf →
      tas.holdVal cur l = (kf.buttons, kf.stick_lx, kf.stick_ly) := by
  induction l with
  | nil => intro cur kf h; simp at h
  | cons kf1 l ih =>
    intro cur kf h
    cases l with
    | nil =>
      simp only [List.getLast?_singleton, Option.some.injEq] at h
      subst h
      rfl
    | cons kf2 l2 =>
      rw [List.getLast?_cons_cons] at h
      exact ih (kf1.buttons, kf1.stick_lx, kf1.stick_ly) kf h

/-- The cursor-advance loop equals dropping the due keyframes while
sample-and-holding their values. -/
theorem consumeKeyframes_eq (f : Nat) :
    ∀ (l : List tas.Keyframe) (cur : Nat × Int × Int),
      tas.consumeKeyframes f l cur =
        (l.dropWhile (tas.kfLe f), tas.holdVal cur (l.takeWhile (tas.kfLe f))) := by
  intro l
  induction l with
  | nil => intro cur; rfl
  | cons kf l ih =>
    intro cur
    by_cases hf : kf.frame ≤ f
    · have hb : tas.kfLe f kf = true := by simp [tas.kfLe, hf]
      simp only [tas.consumeKeyframes, if_pos hf, List.dropWhile_cons_of_pos hb,
        List.takeWhile_cons_of_pos hb, tas.holdVal]
      exact ih _
    · have hb : ¬ tas.kfLe f kf = true := by simp [tas.kfLe, hf]
      simp only [tas.consumeKeyframes, if_neg hf, List.dropWhile_cons_of_neg hb,
        List.takeWhile_cons_of_neg hb, tas.holdVal]

/-- The keyframe-due predicate is monotone in the tick. -/
theorem kfLe_mono {t f : Nat} (h : t ≤ f) :
    ∀ kf, tas.kfLe t kf = true → tas.kfLe f kf = true := by
  intro kf hkf
  simp only [tas.kfLe, decide_eq_true_eq] at *
  omega


/-- Projections of one update_input call when the script-mode guard
(script_active and script_len > 0) holds. -/
theorem update_input_pos (s : tas.TasState) (f : Nat)
    (h : s.active = true ∧ 0 < s.total) :
    (tas.update_input s f).rest = s.rest.dropWhile (tas.kfLe f) ∧
    ((tas.update_input s f).curButtons, (tas.update_input s f).curLx,
        (tas.update_input s f).curLy)
      = tas.holdVal (s.curButtons, s.curLx, s.curLy) (s.rest.takeWhile (tas.kfLe f)) ∧
    (tas.update_input s f).total = s.total ∧
    (tas.update_input s f).active =
      (if (s.rest.dropWhile (tas.kfLe f)).isEmpty = true ∧
          (tas.holdVal (s.curButtons, s.curLx, s.curLy)
            (s.rest.takeWhile (tas.kfLe f))).1 = 0
        then false else s.active) := by
  unfold tas.update_input
  rw [if_pos h]
  simp [consumeKeyframes_eq]

/-- One update_input call is the identity when the script-mode guard
fails. -/
theorem update_input_neg (s : tas.TasState) (f : Nat)
    (h : ¬ (s.active = true ∧ 0 < s.total)) :
    tas.update_input s f = s := by
  unfold tas.update_input
  rw [if_neg h]

/-- Characterization of replay: after processing ticks 0..t the
remaining script is the suffix of not-yet-due keyframes, the current
synthetic input is the sample-and-hold of the due prefix, the stored
length never changes, an inactive state has consumed the whole script,
and an active state implies the script was nonempty. -/
theorem tasRun_charac (script : List tas.Keyframe) :
    ∀ t : Nat,
      (tas.tasRun script t).rest = script.dropWhile (tas.kfLe t) ∧
      ((tas.tasRun script t).curButtons, (tas.tasRun script t).curLx,
          (tas.tasRun script t).curLy)
        = tas.holdVal (0, 0, 0) (script.takeWhile (tas.kfLe t)) ∧
      (tas.tasRun script t).total = script.length ∧
      ((tas.tasRun script t).active = false → (tas.tasRun script t).rest = []) ∧
      ((tas.tasRun script t).active = true → 0 < script.length) := by
  intro t
  induction t with
  | zero =>
    cases hscr : script with
    | nil =>
      have hneg : ¬ ((tas.tasInit ([] : List tas.Keyframe)).active = true ∧
          0 < (tas.tasInit ([] : List tas.Keyframe)).total) := by
        simp [tas.tasInit]
      have h0 : tas.tasRun [] 0 = tas.tasInit [] := update_input_neg _ 0 hneg
      rw [h0]
      refine ⟨rfl, rfl, rfl, fun _ => rfl, ?_⟩
      intro h
      simp [tas.tasInit] at h
    | cons kf l =>
      have hguard : (tas.tasInit (kf :: l)).active = true ∧
          0 < (tas.tasInit (kf :: l)).total := by
        simp [tas.tasInit]
      have h := update_input_pos (tas.tasInit (kf :: l)) 0 hguard
      obtain ⟨h1, h2, h3, h4⟩ := h
      have hr : tas.tasRun (kf :: l) 0 = tas.update_input (tas.tasInit (kf :: l)) 0 := rfl
      refine ⟨by rw [hr, h1]; rfl, by rw [hr, h2]; rfl, by rw [hr, h3]; rfl, ?_, ?_⟩
      · intro ha
        rw [hr, h1]
        rw [hr, h4] at ha
        by_cases hc : (((tas.tasInit (kf :: l)).rest).dropWhile (tas.kfLe 0)).isEmpty = true ∧
            (tas.holdVal
              ((tas.tasInit (kf :: l)).curButtons, (tas.tasInit (kf :: l)).curLx,
                (tas.tasInit (kf :: l)).curLy)
              (((tas.tasInit (kf :: l)).rest).takeWhile (tas.kfLe 0))).1 = 0
        · exact List.isEmpty_iff.mp hc.1
        · rw [if_neg hc] at ha
          rw [hguard.1] at ha
          exact absurd ha (by simp)
      · intro _
        simp
  | succ k ih =>
    obtain ⟨hrest, hcur, htot, hact, hact2⟩ := ih
    have hmono := kfLe_mono (Nat.le_succ k)
    have hr : tas.tasRun script (k + 1) =
        tas.update_input (tas.tasRun script k) (k + 1) := rfl
    cases hs : (tas.tasRun script k).active with
    | false =>
      have hnil : (tas.tasRun script k).rest = [] := hact hs
      have hall : ∀ kf ∈ script, tas.kfLe k kf = true := by
        rw [hrest] at hnil
        exact List.dropWhile_eq_nil_iff.mp hnil
      have hall1 : ∀ kf ∈ script, tas.kfLe (k + 1) kf = true :=
        fun kf hkf => hmono kf (hall kf hkf)
      have hneg : ¬ ((tas.tasRun script k).active = true ∧
          0 < (tas.tasRun script k).total) := by
        rw [hs]
        simp
      have hstep : tas.tasRun script (k + 1) = tas.tasRun script k := by
        rw [hr, update_input_neg _ _ hneg]
      have hd1 : script.dropWhile (tas.kfLe (k + 1)) = [] :=
        List.dropWhile_eq_nil_iff.mpr hall1
      have ht1 : script.takeWhile (tas.kfLe (k + 1)) = script :=
        List.takeWhile_eq_self_iff.mpr hall1
      have ht0 : script.takeWhile (tas.kfLe k) = script :=
        List.takeWhile_eq_self_iff.mpr hall
      rw [hstep]
      refine ⟨by rw [hd1, hnil], ?_, htot, hact, hact2⟩
      rw [ht0] at hcur
      rw [ht1]
      exact hcur
    | true =>
      have hguard : (tas.tasRun script k).active = true ∧
          0 < (tas.tasRun script k).total := by
        refine ⟨hs, ?_⟩
        rw [htot]
        exact hact2 hs
      obtain ⟨h1, h2, h3, h4⟩ := update_input_pos (tas.tasRun script k) (k + 1) hguard
      have hdrop : ((tas.tasRun script k).rest).dropWhile (tas.kfLe (k + 1)) =
          script.dropWhile (tas.kfLe (k + 1)) := by
        rw [hrest]
        exact dropWhile_dropWhile_of_imp hmono script
      have htake : tas.holdVal
          ((tas.tasRun script k).curButtons, (tas.tasRun script k).curLx,
            (tas.tasRun script k).curLy)
          (((tas.tasRun script k).rest).takeWhile (tas.kfLe (k + 1))) =
          tas.holdVal (0, 0, 0) (script.takeWhile (tas.kfLe (k + 1))) := by
        rw [hcur, hrest, takeWhile_split_of_imp hmono script, holdVal_append]
      refine ⟨?_, ?_, ?_, ?_, fun _ => hact2 hs⟩
      · rw [hr, h1, hdrop]
      · rw [hr, h2, htake]
      · rw [hr, h3, htot]
      · intro ha
        rw [hr, h1, hdrop]
        rw [hr, h4] at ha
        by_cases hc : (((tas.tasRun script k).rest).dropWhile (tas.kfLe (k + 1))).isEmpty = true ∧
            (tas.holdVal
              ((tas.tasRun script k).curButtons, (tas.tasRun script k).curLx,
                (tas.tasRun script k).curLy)
              (((tas.tasRun script k).rest).takeWhile (tas.kfLe (k + 1)))).1 = 0
        · rw [← hdrop]
          exact List.isEmpty_iff.mp hc.1
        · rw [if_neg hc] at ha
          rw [hs] at ha
          exact absurd ha (by simp)

/-- On a script with strictly increasing ticks the keyframes at or
before t form a prefix: filtering equals taking while due. -/
theorem takeWhile_eq_filter_of_sorted (t : Nat) :
    ∀ l : List tas.Keyframe,
      l.Pairwise (fun a b => a.frame < b.frame) →
      l.takeWhile (tas.kfLe t) = l.filter (tas.kfLe t) := by
  intro l
  induction l with
  | nil => intro _; rfl
  | cons a l ih =>
    intro hp
    obtain ⟨ha, hl⟩ := List.pairwise_cons.mp hp
    by_cases hf : a.frame ≤ t
    · have hb : tas.kfLe t a = true := by simp [tas.kfLe, hf]
      rw [List.takeWhile_cons_of_pos hb, List.filter_cons_of_pos hb, ih hl]
    · have hb : ¬ tas.kfLe t a = true := by simp [tas.kfLe, hf]
      rw [List.takeWhile_cons_of_neg hb, List.filter_cons_of_neg hb]
      have hnil : l.filter (tas.kfLe t) = [] := by
        apply List.filter_eq_nil_iff.mpr
        intro b hbmem
        simp only [tas.kfLe, decide_eq_true_eq]
        have := ha b hbmem
        omega
      rw [hnil]

/-- C6: for a well-formed script (ticks strictly increasing), replaying
tick-by-tick from cursor 0 yields at every tick t exactly the values of
the nearest keyframe whose tick is at most t (sample-and-hold; the last
of several qualifying keyframes wins). -/
theorem c6_script_sample_and_hold (script : List tas.Keyframe)
    (hs : script.Pairwise (fun a b => a.frame < b.frame))
    (t : Nat) (kf : tas.Keyframe)
    (hkf : tas.lastKeyframeLE script t = some kf) :
    (tas.tasRun script t).curButtons = kf.buttons ∧
    (tas.tasRun script t).curLx = kf.stick_lx ∧
    (tas.tasRun script t).curLy = kf.stick_ly := by
  have hchar := (tasRun_charac script t).2.1
  rw [takeWhile_eq_filter_of_sorted t script hs] at hchar
  unfold tas.lastKeyframeLE at hkf
  rw [holdVal_of_getLast (script.filter (tas.kfLe t)) (0, 0, 0) kf hkf] at hchar
  exact ⟨congrArg Prod.fst hchar, congrArg (fun p => p.2.1) hchar,
    congrArg (fun p => p.2.2) hchar⟩

/-- C6 witness: the example script (ticks 0, 100, 120) is well formed,
its nearest keyframe at tick 119 is the one at tick 100, and by the
theorem the replayed buttons at tick 119 are 0x4000. -/
theorem c6_script_sample_and_hold_witness :
    c6Script.Pairwise (fun a b => a.frame < b.frame) ∧
    tas.lastKeyframeLE c6Script 119 =
      some { frame := 100, buttons := 0x4000, stick_lx := 0, stick_ly := 0 } ∧
    (tas.tasRun c6Script 119).curButtons = 0x4000 :=
  ⟨by decide, by decide,
   (c6_script_sample_and_hold c6Script (by decide) 119
     { frame := 100, buttons := 0x4000, stick_lx := 0, stick_ly := 0 } (by decide)).1⟩

/-- Unpacking the junk-character class: each column conversion's first
test fails on such a character. -/
theorem junkRowChar_spec (c : Char) (h : junkRowChar c = true) :
    c.isDigit = false ∧ tas.isSpaceC c = false ∧
    ¬ c = '+' ∧ ¬ c = '-' ∧ ¬ c = ',' := by
  simp only [junkRowChar, Bool.not_eq_eq_eq_not, Bool.not_true, Bool.or_eq_false_iff,
    beq_eq_false_iff_ne, ne_eq] at h
  exact ⟨h.1.1.1.1.1, h.1.1.1.1.2, h.1.1.1.2, h.1.1.2, h.1.2⟩

/-- A junk character is not a newline (newline is C whitespace). -/
theorem junkRowChar_ne_newline (c : Char) (h : junkRowChar c = true) : ¬ c = '\n' := by
  intro he
  subst he
  simp [junkRowChar, tas.isSpaceC] at h

/-- parseSign leaves the input unchanged when it starts with neither
sign character. -/
theorem parseSign_no_sign (c : Char) (t : List Char)
    (h1 : ¬ c = '-') (h2 : ¬ c = '+') :
    tas.parseSign (c :: t) = (false, c :: t) := by
  unfold tas.parseSign
  split <;> simp_all

/-- skipComma leaves the input unchanged when it does not start with a
comma. -/
theorem skipComma_no_comma (c : Char) (t : List Char) (h : ¬ c = ',') :
    tas.skipComma (c :: t) = c :: t := by
  unfold tas.skipComma
  split <;> simp_all

/-- strtoul (base 10) performs no conversion on input starting with a
junk character and leaves the end pointer unmoved. -/
theorem strtoul10_junk (c : Char) (t : List Char) (h : junkRowChar c = true) :
    tas.strtoul10 (c :: t) = (0, c :: t) := by
  obtain ⟨hd, hsp, hplus, hminus, hcomma⟩ := junkRowChar_spec c h
  simp only [tas.strtoul10]
  rw [List.dropWhile_cons_of_neg (by simp [hsp]), parseSign_no_sign c t hminus hplus]
  rw [List.takeWhile_cons_of_neg (by simp [hd])]
  simp

/-- strtol (base 10) performs no conversion on input starting with a
junk character and leaves the end pointer unmoved. -/
theorem strtol10_junk (c : Char) (t : List Char) (h : junkRowChar c = true) :
    tas.strtol10 (c :: t) = (0, c :: t) := by
  obtain ⟨hd, hsp, hplus, hminus, hcomma⟩ := junkRowChar_spec c h
  simp only [tas.strtol10]
  rw [List.dropWhile_cons_of_neg (by simp [hsp]), parseSign_no_sign c t hminus hplus]
  rw [List.takeWhile_cons_of_neg (by simp [hd])]
  simp

/-- strtoull (base 0) performs no conversion on input starting with a
junk character and leaves the end pointer unmoved. -/
theorem strtoull0_junk (c : Char) (t : List Char) (h : junkRowChar c = true) :
    tas.strtoull0 (c :: t) = (0, c :: t) := by
  obtain ⟨hd, hsp, hplus, hminus, hcomma⟩ := junkRowChar_spec c h
  have h0 : ¬ c = '0' := by
    intro he
    subst he
    simp at hd
  simp only [tas.strtoull0]
  rw [List.dropWhile_cons_of_neg (by simp [hsp]), parseSign_no_sign c t hminus hplus]
  split
  · rfl
  · next heq =>
    split at heq
    · simp_all
    · simp_all
    · rw [List.takeWhile_cons_of_neg (by simp [hd])] at heq
      simp at heq

/-- The skip-to-end-of-line loop consumes a junk row exactly up to its
terminating newline. -/
theorem dropWhile_junk_to_newline (m rest : List Char)
    (h : ∀ c ∈ m, junkRowChar c = true) :
    (m ++ '\n' :: rest).dropWhile (fun c => c ≠ '\n') = '\n' :: rest := by
  induction m with
  | nil =>
    simp only [List.nil_append]
    rw [List.dropWhile_cons_of_neg (by simp)]
  | cons c m2 ih =>
    have hcn : ¬ c = '\n' := junkRowChar_ne_newline c (h c (by simp))
    simp only [List.cons_append]
    rw [List.dropWhile_cons_of_pos (by simp [hcn])]
    exact ih (fun d hd => h d (by simp [hd]))

/-- One iteration of the row loop on a malformed row: every column
conversion fails, the row is consumed to just past its newline, and the
iteration still appends a keyframe, with every column defaulted to 0. -/
theorem parseRow_junkRow (m rest : List Char) (hm : m ≠ [])
    (hjunk : ∀ c ∈ m, junkRowChar c = true) :
    tas.parseRow (m ++ '\n' :: rest) =
      ({ frame := 0, buttons := 0, stick_lx := 0, stick_ly := 0 }, rest) := by
  cases m with
  | nil => exact absurd rfl hm
  | cons c m2 =>
    have hc : junkRowChar c = true := hjunk c (by simp)
    obtain ⟨hd, hsp, hplus, hminus, hcomma⟩ := junkRowChar_spec c hc
    have hdw := dropWhile_junk_to_newline (c :: m2) rest hjunk
    simp only [List.cons_append] at hdw
    simp only [List.cons_append, tas.parseRow]
    rw [strtoul10_junk c _ hc, skipComma_no_comma c _ hcomma, strtoull0_junk c _ hc,
      skipComma_no_comma c _ hcomma, strtol10_junk c _ hc, skipComma_no_comma c _ hcomma,
      strtol10_junk c _ hc, hdw]
    simp [tas.toInt32]

/-- dropWhile never lengthens a list. -/
theorem dropWhile_length_le {α : Type} (p : α → Bool) :
    ∀ l : List α, (l.dropWhile p).length ≤ l.length := by
  intro l
  induction l with
  | nil => simp
  | cons a t ih =>
    by_cases hp : p a = true
    · rw [List.dropWhile_cons_of_pos hp]
      simp only [List.length_cons]
      omega
    · rw [List.dropWhile_cons_of_neg hp]

/-- parseSign never lengthens its input. -/
theorem parseSign_length (l : List Char) :
    (tas.parseSign l).2.length ≤ l.length := by
  unfold tas.parseSign
  split <;> simp

/-- skipComma never lengthens its input. -/
theorem skipComma_length (l : List Char) :
    (tas.skipComma l).length ≤ l.length := by
  unfold tas.skipComma
  split <;> simp

/-- strtoul (base 10) returns a suffix no longer than its input. -/
theorem strtoul10_length (l : List Char) :
    (tas.strtoul10 l).2.length ≤ l.length := by
  simp only [tas.strtoul10]
  split
  · exact le_refl _
  · exact le_trans (dropWhile_length_le _ _)
      (le_trans (parseSign_length _) (dropWhile_length_le _ _))

/-- strtol (base 10) returns a suffix no longer than its input. -/
theorem strtol10_length (l : List Char) :
    (tas.strtol10 l).2.length ≤ l.length := by
  simp only [tas.strtol10]
  split
  · exact le_refl _
  · exact le_trans (dropWhile_length_le _ _)
      (le_trans (parseSign_length _) (dropWhile_length_le _ _))

/-- strtoull (base 0) returns a suffix no longer than its input. -/
theorem strtoull0_length (l : List Char) :
    (tas.strtoull0 l).2.length ≤ l.length := by
  have hs : (tas.parseSign (l.dropWhile tas.isSpaceC)).2.length ≤ l.length :=
    le_trans (parseSign_length _) (dropWhile_length_le _ _)
  simp only [tas.strtoull0]
  split
  · exact le_refl _
  · rename_i m2 restv heq
    show restv.length ≤ l.length
    split at heq
    · rename_i c2 rest2 hpat
      rw [hpat] at hs
      simp only [List.length_cons] at hs
      split at heq
      · split at heq
        · simp only [Option.some.injEq, Prod.mk.injEq] at heq
          rw [← heq.2]
          simp only [List.length_cons]
          omega
        · simp only [Option.some.injEq, Prod.mk.injEq] at heq
          rw [← heq.2]
          have hdw := dropWhile_length_le tas.isHexDigitC rest2
          omega
      · simp only [Option.some.injEq, Prod.mk.injEq] at heq
        rw [← heq.2]
        have hdw := dropWhile_length_le tas.isOctDigitC ('0' :: c2 :: rest2)
        simp only [List.length_cons] at hdw
        omega
    · simp only [Option.some.injEq, Prod.mk.injEq] at heq
      rw [← heq.2]
      simp
    · split at heq
      · simp at heq
      · simp only [Option.some.injEq, Prod.mk.injEq] at heq
        rw [← heq.2]
        exact le_trans (dropWhile_length_le _ _) hs

/-- The first element surviving a dropWhile fails the predicate. -/
theorem dropWhile_head_false {α : Type} (p : α → Bool) :
    ∀ (l : List α) (c : α) (r : List α), l.dropWhile p = c :: r → p c = false := by
  intro l
  induction l with
  | nil =>
    intro c r h
    simp at h
  | cons a t ih =>
    intro c r h
    by_cases hp : p a = true
    · rw [List.dropWhile_cons_of_pos hp] at h
      exact ih c r h
    · rw [List.dropWhile_cons_of_neg hp] at h
      injection h with h1 h2
      subst h1
      simpa using hp

/-- When the end-of-line skip does not stop on a newline it has
consumed the whole remaining buffer. -/
theorem lineSkip_no_newline (x : List Char)
    (hne : ∀ r : List Char, x.dropWhile (fun c => c ≠ '\n') = '\n' :: r → False) :
    (x.dropWhile (fun c => c ≠ '\n')).length = 0 := by
  cases h : x.dropWhile (fun c => c ≠ '\n') with
  | nil => simp
  | cons c r =>
    have hfalse := dropWhile_head_false _ _ c r h
    have hc : c = '\n' := by simpa using hfalse
    subst hc
    exact (hne r h).elim

/-- Every iteration of the row loop consumes at least one character:
the end-of-line skip either hits the terminating newline (consumed) or
the end of the buffer. -/
theorem parseRow_length (l : List Char) (hl : l ≠ []) :
    (tas.parseRow l).2.length < l.length := by
  simp only [tas.parseRow]
  split
  · next r heq =>
    have hd : ('\n' :: r).length ≤ l.length := by
      rw [← heq]
      exact le_trans (dropWhile_length_le _ _)
        (le_trans (strtol10_length _)
          (le_trans (skipComma_length _)
            (le_trans (strtol10_length _)
              (le_trans (skipComma_length _)
                (le_trans (strtoull0_length _)
                  (le_trans (skipComma_length _) (strtoul10_length l)))))))
    simp only [List.length_cons] at hd
    omega
  · next hne =>
    have h0 := lineSkip_no_newline _ hne
    rw [h0]
    exact List.length_pos.mpr hl

/-- The fuel in the row-loop model is an artifact: any two bounds
exceeding the buffer length produce the same keyframe list, because
every loop iteration consumes at least one character. -/
theorem parseRows_fuel_congr :
    ∀ (k : Nat) (l : List Char), l.length ≤ k → ∀ (fuel fuel' n : Nat),
      l.length < fuel → l.length < fuel' →
      tas.parseRows fuel l n = tas.parseRows fuel' l n := by
  intro k
  induction k with
  | zero =>
    intro l hk fuel fuel' n hf hf'
    have hnil : l = [] := List.length_eq_zero.mp (Nat.le_zero.mp hk)
    subst hnil
    cases fuel with
    | zero => omega
    | succ f =>
      cases fuel' with
      | zero => omega
      | succ f2 =>
        unfold tas.parseRows
        simp
  | succ k ih =>
    intro l hk fuel fuel' n hf hf'
    cases fuel with
    | zero => omega
    | succ f =>
      cases fuel' with
      | zero => omega
      | succ f2 =>
        by_cases he : l.isEmpty = true ∨ ¬ n < tas.MAX_KEYFRAMES
        · unfold tas.parseRows
          rw [if_pos he, if_pos he]
        · unfold tas.parseRows
          rw [if_neg he, if_neg he]
          have hne : l ≠ [] := by
            intro hnil
            exact he (Or.inl (by simp [hnil]))
          have hdec := parseRow_length l hne
          have hrec := ih (tas.parseRow l).2 (by omega) f f2 (n + 1)
            (by omega) (by omega)
          simp only [hrec]

/-- C9 amended: a malformed script row never aborts the script.  For
every row made of characters on which every column conversion fails
(no digits, signs, whitespace or commas — e.g. "xyz"), every following
file content, every cursor position below the keyframe cap and every
loop bound, the loader consumes the row up to its newline and continues
parsing all subsequent rows, but instead of skipping the row it still
emits one keyframe with all four columns defaulted to 0 in the row's
position.  The loop bound is immaterial (second conjunct), and on the
concrete example file the result is the cleaned parse with the extra
(0,0,0,0) keyframe inserted, not the parse with the row deleted. -/
theorem c9_malformed_row_continues_and_emits_default :
    (∀ (m rest : List Char) (fuel n : Nat), m ≠ [] →
      (∀ c ∈ m, junkRowChar c = true) → n < tas.MAX_KEYFRAMES →
      tas.parseRows (fuel + 1) (m ++ '\n' :: rest) n =
        { frame := 0, buttons := 0, stick_lx := 0, stick_ly := 0 }
          :: tas.parseRows fuel rest (n + 1)) ∧
    (∀ (fuel fuel' : Nat) (l : List Char) (n : Nat),
      l.length < fuel → l.length < fuel' →
      tas.parseRows fuel l n = tas.parseRows fuel' l n) ∧
    tas.load_script c9File =
      [{ frame := 0, buttons := 1, stick_lx := 2, stick_ly := 3 },
       { frame := 0, buttons := 0, stick_lx := 0, stick_ly := 0 },
       { frame := 5, buttons := 6, stick_lx := 7, stick_ly := 8 }] ∧
    tas.load_script c9FileRowDeleted =
      [{ frame := 0, buttons := 1, stick_lx := 2, stick_ly := 3 },
       { frame := 5, buttons := 6, stick_lx := 7, stick_ly := 8 }] := by
  refine ⟨?_, ?_, by decide, by decide⟩
  · intro m rest fuel n hm hjunk hn
    have hne : ¬ ((m ++ '\n' :: rest).isEmpty = true ∨ ¬ n < tas.MAX_KEYFRAMES) := by
      simp only [not_or, not_not]
      refine ⟨?_, hn⟩
      cases m <;> simp
    conv_lhs => unfold tas.parseRows
    rw [if_neg hne, parseRow_junkRow m rest hm hjunk]
  · intro fuel fuel' l n hf hf'
    exact parseRows_fuel_congr l.length l (le_refl _) fuel fuel' n hf hf'

/-- C9 witness: the malformed row "xyz" followed by the good row
"5,6,7,8" — the theorem's first conjunct applied at this input shows
the loop emits the defaulted keyframe and goes on to the next row, and
the second conjunct applied at two different bounds shows the bound is
immaterial. -/
theorem c9_malformed_row_continues_and_emits_default_witness :
    ((("xyz").toList ≠ [] ∧ (∀ c ∈ ("xyz").toList, junkRowChar c = true) ∧
        0 < tas.MAX_KEYFRAMES) ∧
      tas.parseRows 1000 (("xyz").toList ++ '\n' :: ("5,6,7,8\n").toList) 0 =
        { frame := 0, buttons := 0, stick_lx := 0, stick_ly := 0 }
          :: tas.parseRows 999 (("5,6,7,8\n").toList) 1) ∧
    ((("5,6,7,8\n").toList).length < 999 ∧ (("5,6,7,8\n").toList).length < 42) ∧
    tas.parseRows 999 (("5,6,7,8\n").toList) 1 = tas.parseRows 42 (("5,6,7,8\n").toList) 1 :=
  ⟨⟨⟨by decide, by decide, by decide⟩,
    c9_malformed_row_continues_and_emits_default.1 ("xyz").toList ("5,6,7,8\n").toList 999 0
      (by decide) (by decide) (by decide)⟩,
   ⟨by decide, by decide⟩,
   c9_malformed_row_continues_and_emits_default.2.1 999 42 (("5,6,7,8\n").toList) 1
     (by decide) (by decide)⟩
